import Mathlib

/-!
Verification of the value-conversion and row-access layer of
`rust_mysql_common` (files `src/value/convert.rs` and `src/row/mod.rs`).

The Rust code is shallowly embedded: machine integers become `Nat`/`Int`
with explicit bounds, byte slices become `List Nat` (each element a byte
value), fallible operations return `Option`/`Except`, and a Rust panic is
modelled as an explicit `none` result of an `Option`-valued embedding.
External crate functions that the repository merely calls (lexical's
typed parsers, chrono/time validity checks, UTF-8 validation, UUID
decoding) are passed in as parameters wherever the verified properties
hold for every possible behaviour of those functions.
-/

namespace MysqlCommon

/-- `i64::MAX` as an integer. -/
def i64Max : Int := 9223372036854775807

/-- `i64::MAX` as a natural number (for comparisons against `u64`). -/
def i64MaxNat : Nat := 9223372036854775807

/-- The `Value` enum from `src/value/mod.rs` as used by `convert.rs`:
`NULL`, `Int(i64)`, `UInt(u64)`, `Float(f64)`, `Bytes(Vec<u8>)`,
`Date(u16,u8,u8,u8,u8,u8,u32)`, `Time(bool,u32,u8,u8,u8,u32)`.
The `f64` payload is carried as its 64-bit pattern (an opaque `Nat`):
none of the verified properties inspect float semantics. -/
inductive Value : Type where
  | NULL : Value
  | Int : Int → Value
  | UInt : Nat → Value
  | Float : Nat → Value
  | Bytes : List Nat → Value
  | Date : Nat → Nat → Nat → Nat → Nat → Nat → Nat → Value
  | Time : Bool → Nat → Nat → Nat → Nat → Nat → Value
  deriving DecidableEq, Repr

/-- `impl From<u64> for Value` (the `into_value_impl!(u64)` arm of
`convert.rs`): always `Value::UInt(x)`. -/
def value_from_u64 (x : Nat) : Value := Value.UInt x

/-- `impl From<usize> for Value` (`convert.rs`): `Int` when
`x <= i64::MAX`, otherwise `UInt`. -/
def value_from_usize (x : Nat) : Value :=
  if x ≤ i64MaxNat then Value.Int (Int.ofNat x) else Value.UInt x

/-! ## Temporal parsers (`parse_micros`, `parse_mysql_datetime_string`,
`parse_mysql_time_string` from `convert.rs`)

Byte slices are `List Nat`.  Rust panics (out-of-bounds slicing, `usize`
underflow) are tracked explicitly: each parser returns
`Option (Option result)` where the outer `none` means "the Rust code
would panic" and `some none` means "no match".

The seven `lazy_static!` patterns are `regex::bytes::Regex` with Unicode
mode on (the crate default), so `\d` matches the UTF-8 encoding of any
codepoint in Unicode's `Nd` category, not just ASCII `0-9`, while the
explicit classes `[0-5]`/`[0-8]` and the literals `-`, `:`, `.`, ` ` are
single ASCII bytes.  The regexes are modelled as codepoint-wise matchers
over a concrete UTF-8 decoder, parametric in the `Nd` table
`isNd : Nat → Bool` (external-crate Unicode data). -/

/-- A decimal ASCII digit byte (used to state the `parse_micros`
scaling property over the all-ASCII-digit slices). -/
def isDigit (b : Nat) : Bool := 48 ≤ b && b ≤ 57

/-- Decode one UTF-8 scalar value from the front of a byte list:
`some (codepoint, rest)` on a valid sequence (overlong forms,
surrogates and out-of-range values rejected), `none` otherwise. -/
def utf8Decode1 : List Nat → Option (Nat × List Nat)
  | [] => none
  | b0 :: r0 =>
    if b0 < 128 then some (b0, r0)
    else if 192 ≤ b0 ∧ b0 < 224 then
      match r0 with
      | b1 :: r1 =>
        if 128 ≤ b1 ∧ b1 < 192 then
          let c := (b0 - 192) * 64 + (b1 - 128)
          if 128 ≤ c then some (c, r1) else none
        else none
      | [] => none
    else if 224 ≤ b0 ∧ b0 < 240 then
      match r0 with
      | b1 :: b2 :: r2 =>
        if (128 ≤ b1 ∧ b1 < 192) ∧ (128 ≤ b2 ∧ b2 < 192) then
          let c := (b0 - 224) * 4096 + (b1 - 128) * 64 + (b2 - 128)
          if 2048 ≤ c ∧ (c < 55296 ∨ 57344 ≤ c) then some (c, r2) else none
        else none
      | _ => none
    else if 240 ≤ b0 ∧ b0 < 248 then
      match r0 with
      | b1 :: b2 :: b3 :: r3 =>
        if (128 ≤ b1 ∧ b1 < 192) ∧ (128 ≤ b2 ∧ b2 < 192) ∧
            (128 ≤ b3 ∧ b3 < 192) then
          let c := (b0 - 240) * 262144 + (b1 - 128) * 4096 +
            (b2 - 128) * 64 + (b3 - 128)
          if 65536 ≤ c ∧ c ≤ 1114111 then some (c, r3) else none
        else none
      | _ => none
    else none

/-- Match one `\d` (a UTF-8-encoded `Nd` codepoint), returning the rest. -/
def matchNd (isNd : Nat → Bool) (l : List Nat) : Option (List Nat) :=
  match utf8Decode1 l with
  | some (c, rest) => if isNd c then some rest else none
  | none => none

/-- Match one literal ASCII byte. -/
def matchByte (b : Nat) : List Nat → Option (List Nat)
  | x :: rest => if x = b then some rest else none
  | [] => none

/-- Match one byte of an ASCII class such as `[0-5]` or `[0-8]`. -/
def matchRange (lo hi : Nat) : List Nat → Option (List Nat)
  | x :: rest => if lo ≤ x ∧ x ≤ hi then some rest else none
  | [] => none

/-- Anchored `\d{1,k}$`: the whole remaining input is one to `k` `Nd`
codepoints. -/
def ndAtMost (isNd : Nat → Bool) : Nat → List Nat → Bool
  | 0, _ => false
  | k + 1, l =>
    match matchNd isNd l with
    | some [] => true
    | some rest => ndAtMost isNd k rest
    | none => false

/-- The `\d{4}-\d{2}-\d{2}` head shared by the three datetime regexes. -/
def ymdHead (isNd : Nat → Bool) (l : List Nat) : Option (List Nat) :=
  matchNd isNd l |>.bind (matchNd isNd) |>.bind (matchNd isNd)
    |>.bind (matchNd isNd) |>.bind (matchByte 45) |>.bind (matchNd isNd)
    |>.bind (matchNd isNd) |>.bind (matchByte 45) |>.bind (matchNd isNd)
    |>.bind (matchNd isNd)

/-- The ` \d{2}:\d{2}:\d{2}` segment of the long datetime regexes. -/
def hmsTail (isNd : Nat → Bool) (l : List Nat) : Option (List Nat) :=
  matchByte 32 l |>.bind (matchNd isNd) |>.bind (matchNd isNd)
    |>.bind (matchByte 58) |>.bind (matchNd isNd) |>.bind (matchNd isNd)
    |>.bind (matchByte 58) |>.bind (matchNd isNd) |>.bind (matchNd isNd)

/-- `DATETIME_RE_YMD`: `^\d{4}-\d{2}-\d{2}$`. -/
def reDatetimeYmd (isNd : Nat → Bool) (l : List Nat) : Bool :=
  decide (ymdHead isNd l = some [])

/-- `DATETIME_RE_YMD_HMS`: `^\d{4}-\d{2}-\d{2} \d{2}:\d{2}:\d{2}$`. -/
def reDatetimeYmdHms (isNd : Nat → Bool) (l : List Nat) : Bool :=
  decide ((ymdHead isNd l).bind (hmsTail isNd) = some [])

/-- `DATETIME_RE_YMD_HMS_NS`:
`^\d{4}-\d{2}-\d{2} \d{2}:\d{2}:\d{2}\.\d{1,6}$`. -/
def reDatetimeYmdHmsNs (isNd : Nat → Bool) (l : List Nat) : Bool :=
  match (ymdHead isNd l).bind (hmsTail isNd) |>.bind (matchByte 46) with
  | some rest => ndAtMost isNd 6 rest
  | none => false

/-- The `\d{2}:[0-5]\d:[0-5]\d` head of the 2-digit-hour time regexes. -/
def hhMmSsChain (isNd : Nat → Bool) (l : List Nat) : Option (List Nat) :=
  matchNd isNd l |>.bind (matchNd isNd) |>.bind (matchByte 58)
    |>.bind (matchRange 48 53) |>.bind (matchNd isNd) |>.bind (matchByte 58)
    |>.bind (matchRange 48 53) |>.bind (matchNd isNd)

/-- The `[0-8]\d\d:[0-5]\d:[0-5]\d` head of the 3-digit-hour time
regexes. -/
def hhhMmSsChain (isNd : Nat → Bool) (l : List Nat) : Option (List Nat) :=
  matchRange 48 56 l |>.bind (matchNd isNd) |>.bind (matchNd isNd)
    |>.bind (matchByte 58) |>.bind (matchRange 48 53) |>.bind (matchNd isNd)
    |>.bind (matchByte 58) |>.bind (matchRange 48 53) |>.bind (matchNd isNd)

/-- `TIME_RE_HH_MM_SS`: `^\d{2}:[0-5]\d:[0-5]\d$`. -/
def reTimeHhMmSs (isNd : Nat → Bool) (l : List Nat) : Bool :=
  decide (hhMmSsChain isNd l = some [])

/-- `TIME_RE_HH_MM_SS_MS`: `^\d{2}:[0-5]\d:[0-5]\d\.\d{1,6}$`. -/
def reTimeHhMmSsMs (isNd : Nat → Bool) (l : List Nat) : Bool :=
  match (hhMmSsChain isNd l).bind (matchByte 46) with
  | some rest => ndAtMost isNd 6 rest
  | none => false

/-- `TIME_RE_HHH_MM_SS`: `^[0-8]\d\d:[0-5]\d:[0-5]\d$`. -/
def reTimeHhhMmSs (isNd : Nat → Bool) (l : List Nat) : Bool :=
  decide (hhhMmSsChain isNd l = some [])

/-- `TIME_RE_HHH_MM_SS_MS`: `^[0-8]\d\d:[0-5]\d:[0-5]\d\.\d{1,6}$`. -/
def reTimeHhhMmSsMs (isNd : Nat → Bool) (l : List Nat) : Bool :=
  match (hhhMmSsChain isNd l).bind (matchByte 46) with
  | some rest => ndAtMost isNd 6 rest
  | none => false

/-- `lexical::parse` restricted to the all-digit slices the parsers feed
it: the usual decimal left fold. -/
def lexParseNat (l : List Nat) : Nat :=
  l.foldl (fun acc b => acc * 10 + (b - 48)) 0

/-- The leading-`'0'` count loop of `parse_micros` (`for b in ... break`). -/
def leadingZeros : List Nat → Nat
  | [] => 0
  | b :: rest => if b = 48 then leadingZeros rest + 1 else 0

/-- `&l[..b]`; `none` models the Rust slicing panic. -/
def sliceTo? (l : List Nat) (b : Nat) : Option (List Nat) :=
  if b ≤ l.length then some (l.take b) else none

/-- `&l[a..b]`; `none` models the Rust slicing panic. -/
def sliceFromTo? (l : List Nat) (a b : Nat) : Option (List Nat) :=
  if a ≤ b ∧ b ≤ l.length then some ((l.take b).drop a) else none

/-- `&l[a..]`; `none` models the Rust slicing panic. -/
def sliceFrom? (l : List Nat) (a : Nat) : Option (List Nat) :=
  if a ≤ l.length then some (l.drop a) else none

/-- `parse_micros` from `convert.rs` with panic tracking: the two `usize`
subtractions in the loop bound `6 - pad_zero_cnt - (len - pad_zero_cnt)`
are checked (Rust would abort on underflow), and the loop
`micros *= 10` is the multiplication by `10 ^ count`. -/
def parse_micros? (mb : List Nat) : Option Nat :=
  let micros := lexParseNat mb
  let pad := leadingZeros mb
  if pad ≤ 6 then
    if pad ≤ mb.length then
      if mb.length - pad ≤ 6 - pad then
        some (micros * 10 ^ (6 - pad - (mb.length - pad)))
      else none
    else none
  else none

/-- `parse_mysql_datetime_string` from `convert.rs` with panic tracking
(outer `none` = panic, `some none` = no match): every slice is checked
and a panic anywhere aborts the whole computation (`Option.bind`).
Returns `(year, month, day, hour, minute, second, micros)`. -/
def parse_mysql_datetime_string? (isNd : Nat → Bool) (bytes : List Nat) :
    Option (Option (Nat × Nat × Nat × Nat × Nat × Nat × Nat)) :=
  let len := bytes.length
  if len = 10 ∧ reDatetimeYmd isNd bytes then
    (sliceTo? bytes 4).bind fun ys =>
    (sliceFromTo? bytes 5 7).bind fun ms =>
    (sliceFromTo? bytes 8 10).bind fun ds =>
    some (some (lexParseNat ys, lexParseNat ms, lexParseNat ds, 0, 0, 0, 0))
  else if len = 19 ∧ reDatetimeYmdHms isNd bytes then
    (sliceTo? bytes 4).bind fun ys =>
    (sliceFromTo? bytes 5 7).bind fun ms =>
    (sliceFromTo? bytes 8 10).bind fun ds =>
    (sliceFromTo? bytes 11 13).bind fun hs =>
    (sliceFromTo? bytes 14 16).bind fun is =>
    (sliceFromTo? bytes 17 19).bind fun ss =>
    some (some (lexParseNat ys, lexParseNat ms, lexParseNat ds,
      lexParseNat hs, lexParseNat is, lexParseNat ss, 0))
  else if 20 < len ∧ len < 27 ∧ reDatetimeYmdHmsNs isNd bytes then
    (sliceTo? bytes 4).bind fun ys =>
    (sliceFromTo? bytes 5 7).bind fun ms =>
    (sliceFromTo? bytes 8 10).bind fun ds =>
    (sliceFromTo? bytes 11 13).bind fun hs =>
    (sliceFromTo? bytes 14 16).bind fun is =>
    (sliceFromTo? bytes 17 19).bind fun ss =>
    (sliceFrom? bytes 20).bind fun us =>
    (parse_micros? us).bind fun micro =>
    some (some (lexParseNat ys, lexParseNat ms, lexParseNat ds,
      lexParseNat hs, lexParseNat is, lexParseNat ss, micro))
  else some none

/-- The four-layout dispatch of `parse_mysql_time_string` (the `kind`
match plus field extraction), applied after the optional `-` sign was
stripped.  Panic-tracking as in the datetime parser. -/
def timeKindDispatch (isNd : Nat → Bool) (isNeg : Bool) (rest : List Nat) :
    Option (Option (Bool × Nat × Nat × Nat × Nat)) :=
  if rest.length = 8 ∧ reTimeHhMmSs isNd rest then
    (sliceTo? rest 2).bind fun hs =>
    (sliceFromTo? rest 3 5).bind fun ms =>
    (sliceFromTo? rest 6 8).bind fun ss =>
    some (some (isNeg, lexParseNat hs, lexParseNat ms, lexParseNat ss, 0))
  else if rest.length = 9 ∧ reTimeHhhMmSs isNd rest then
    (sliceTo? rest 3).bind fun hs =>
    (sliceFromTo? rest 4 6).bind fun ms =>
    (sliceFromTo? rest 7 9).bind fun ss =>
    some (some (isNeg, lexParseNat hs, lexParseNat ms, lexParseNat ss, 0))
  else if reTimeHhMmSsMs isNd rest then
    (sliceTo? rest 2).bind fun hs =>
    (sliceFromTo? rest 3 5).bind fun ms =>
    (sliceFromTo? rest 6 8).bind fun ss =>
    (sliceFrom? rest 9).bind fun us =>
    (parse_micros? us).bind fun micro =>
    some (some (isNeg, lexParseNat hs, lexParseNat ms, lexParseNat ss, micro))
  else if reTimeHhhMmSsMs isNd rest then
    (sliceTo? rest 3).bind fun hs =>
    (sliceFromTo? rest 4 6).bind fun ms =>
    (sliceFromTo? rest 7 9).bind fun ss =>
    (sliceFrom? rest 10).bind fun us =>
    (parse_micros? us).bind fun micro =>
    some (some (isNeg, lexParseNat hs, lexParseNat ms, lexParseNat ss, micro))
  else some none

/-- `parse_mysql_time_string` from `convert.rs` with panic tracking
(outer `none` = panic, `some none` = no match).  `bytes[0]` and the sign
strip `&bytes[1..]` are the checked accesses before the dispatch.
Returns `(is_neg, hours, minutes, seconds, micros)`. -/
def parse_mysql_time_string? (isNd : Nat → Bool) (bytes : List Nat) :
    Option (Option (Bool × Nat × Nat × Nat × Nat)) :=
  if bytes.length < 8 then some none
  else
    bytes.head?.bind fun b0 =>
    (if b0 = 45 then sliceFrom? bytes 1 else some bytes).bind fun rest =>
    timeKindDispatch isNd (b0 = 45) rest

/-- The datetime parser as a total function — justified: the datetime
parser genuinely never reaches its panic marker (proved below, for
every `Nd` table). -/
def parse_mysql_datetime_string (isNd : Nat → Bool) (bytes : List Nat) :
    Option (Nat × Nat × Nat × Nat × Nat × Nat × Nat) :=
  (parse_mysql_datetime_string? isNd bytes).getD none

/-- The time parser with its panic path collapsed to "no match".  The
panic path is REACHABLE (the `parse_micros` underflow bug, exhibited
below), so this wrapper is only used inside the conversion models whose
verified statements either do not depend on the parser's outcome at all
or are explicitly conditioned on `parse_mysql_time_string?` terminating
(returning `some _`), in which case the two functions agree. -/
def parse_mysql_time_string (isNd : Nat → Bool) (bytes : List Nat) :
    Option (Bool × Nat × Nat × Nat × Nat) :=
  (parse_mysql_time_string? isNd bytes).getD none

/-- The leading-zero count never exceeds the length. -/
theorem leadingZeros_le (l : List Nat) : leadingZeros l ≤ l.length := by
  induction l with
  | nil => simp [leadingZeros]
  | cons b rest ih =>
    simp only [leadingZeros, List.length_cons]
    split
    · omega
    · omega

/-- On at most six bytes `parse_micros` cannot underflow, and it scales
its decimal reading by `10 ^ (6 - len)`. -/
theorem parse_micros_eq (mb : List Nat) (h : mb.length ≤ 6) :
    parse_micros? mb = some (lexParseNat mb * 10 ^ (6 - mb.length)) := by
  have hpad := leadingZeros_le mb
  simp only [parse_micros?]
  rw [if_pos (by omega), if_pos (by omega), if_pos (by omega)]
  have he : 6 - leadingZeros mb - (mb.length - leadingZeros mb) = 6 - mb.length := by
    omega
  rw [he]

/-- `sliceTo?` succeeds whenever the end stays in bounds. -/
theorem sliceTo_eq (l : List Nat) (b : Nat) (h : b ≤ l.length) :
    sliceTo? l b = some (l.take b) := by
  simp [sliceTo?, h]

/-- `sliceFromTo?` succeeds whenever the range is well formed. -/
theorem sliceFromTo_eq (l : List Nat) (a b : Nat) (hab : a ≤ b)
    (h : b ≤ l.length) : sliceFromTo? l a b = some ((l.take b).drop a) := by
  simp [sliceFromTo?, hab, h]

/-- `sliceFrom?` succeeds whenever the start stays in bounds. -/
theorem sliceFrom_eq (l : List Nat) (a : Nat) (h : a ≤ l.length) :
    sliceFrom? l a = some (l.drop a) := by
  simp [sliceFrom?, h]

/-- The datetime parser never reaches its panic marker, whatever the
`Nd` table: the branch length windows alone keep every fixed-offset
slice in bounds and the fractional slice at most six bytes, so
`parse_micros` cannot underflow on this path. -/
theorem datetime_parser_total (isNd : Nat → Bool) (bytes : List Nat) :
    (parse_mysql_datetime_string? isNd bytes).isSome = true := by
  simp only [parse_mysql_datetime_string?]
  by_cases h1 : bytes.length = 10 ∧ reDatetimeYmd isNd bytes = true
  · rw [if_pos h1]
    rw [sliceTo_eq _ _ (by omega), sliceFromTo_eq _ _ _ (by omega) (by omega),
      sliceFromTo_eq _ _ _ (by omega) (by omega)]
    rfl
  · rw [if_neg h1]
    by_cases h2 : bytes.length = 19 ∧ reDatetimeYmdHms isNd bytes = true
    · rw [if_pos h2]
      rw [sliceTo_eq _ _ (by omega), sliceFromTo_eq _ _ _ (by omega) (by omega),
        sliceFromTo_eq _ _ _ (by omega) (by omega),
        sliceFromTo_eq _ _ _ (by omega) (by omega),
        sliceFromTo_eq _ _ _ (by omega) (by omega),
        sliceFromTo_eq _ _ _ (by omega) (by omega)]
      rfl
    · rw [if_neg h2]
      by_cases h3 : 20 < bytes.length ∧ bytes.length < 27 ∧
        reDatetimeYmdHmsNs isNd bytes = true
      · rw [if_pos h3]
        obtain ⟨h20, h27, -⟩ := h3
        rw [sliceTo_eq _ _ (by omega), sliceFromTo_eq _ _ _ (by omega) (by omega),
          sliceFromTo_eq _ _ _ (by omega) (by omega),
          sliceFromTo_eq _ _ _ (by omega) (by omega),
          sliceFromTo_eq _ _ _ (by omega) (by omega),
          sliceFromTo_eq _ _ _ (by omega) (by omega),
          sliceFrom_eq _ _ (by omega)]
        simp only [Option.some_bind]
        rw [parse_micros_eq _ (by simp; omega)]
        rfl
      · rw [if_neg h3]
        rfl

/-- Modelled from Unicode data (shipped inside the external `regex`
crate): a fragment of the `Nd` (decimal digit) category sufficient for
the exhibited inputs — the ASCII digits plus U+0660 ARABIC-INDIC DIGIT
ZERO.  Theorems about concrete inputs quantify over any table that
agrees with `Nd` on the codepoints the run actually decodes. -/
def ndFragment (c : Nat) : Bool := (48 ≤ c && c ≤ 57) || c == 1632

/-- `"00:00:00."` followed by four U+0660 digits (UTF-8 `D9 A0` each):
17 bytes, 13 codepoints, matched by the Unicode-aware
`TIME_RE_HH_MM_SS_MS`. -/
def timeBugInput : List Nat :=
  [48, 48, 58, 48, 48, 58, 48, 48, 46, 217, 160, 217, 160, 217, 160, 217, 160]

/-- On `timeBugInput` the time-layout dispatch reaches the `parse_micros`
underflow: the fractional slice `&rest[9..]` is 8 bytes, and
`6 - 0 - 8` underflows `usize`. -/
theorem timeKindDispatch_underflow (isNd : Nat → Bool) (isNeg : Bool)
    (h48 : isNd 48 = true) (h660 : isNd 1632 = true) :
    timeKindDispatch isNd isNeg timeBugInput = none := by
  simp [timeBugInput, timeKindDispatch, reTimeHhMmSs, reTimeHhhMmSs,
    reTimeHhMmSsMs, reTimeHhhMmSsMs, hhMmSsChain, hhhMmSsChain, matchNd,
    matchByte, matchRange, utf8Decode1, ndAtMost, sliceTo?, sliceFromTo?,
    sliceFrom?, parse_micros?, leadingZeros, h48, h660]

/-- **C4** (code bug): the claim — and the crate's own
`parse_mysql_time_string_doesnt_crash` property test — says the parsers
never panic on arbitrary input, but the Unicode-aware
`TIME_RE_HH_MM_SS_MS` accepts `timeBugInput`, whose 8-byte fractional
suffix drives `parse_micros` into the `6 - pad - (len - pad)` `usize`
underflow: the time parser reaches the panic marker for every `Nd`
table containing `'0'` and U+0660 (as Unicode's does).  The `parse_micros`
underflow itself and the genuine panic-freedom of the datetime parser
are the other two conjuncts. -/
theorem time_parser_micros_underflow :
    (∀ isNd : Nat → Bool, isNd 48 = true → isNd 1632 = true →
      parse_mysql_time_string? isNd timeBugInput = none) ∧
    parse_micros? [217, 160, 217, 160, 217, 160, 217, 160] = none ∧
    (∀ (isNd : Nat → Bool) (bytes : List Nat),
      (parse_mysql_datetime_string? isNd bytes).isSome = true) := by
  refine ⟨?_, by rfl, datetime_parser_total⟩
  intro isNd h48 h660
  have hd := timeKindDispatch_underflow isNd (decide ((48 : Nat) = 45)) h48 h660
  simp only [parse_mysql_time_string?]
  rw [if_neg (by decide)]
  rw [show timeBugInput.head? = some 48 from rfl]
  simp only [Option.some_bind]
  rw [if_neg (by decide)]
  simp only [Option.some_bind]
  exact hd

/-- Witness for C4: the concrete `Nd` fragment exhibits the panic. -/
theorem time_parser_micros_underflow_witness :
    parse_mysql_time_string? ndFragment timeBugInput = none :=
  time_parser_micros_underflow.1 ndFragment (by decide) (by decide)

/-- **C5**: a fractional suffix of `d` digits (`1 ≤ d ≤ 6`) reading as the
integer `n` yields the microsecond value `n * 10 ^ (6 - d)`. -/
theorem fractional_micros_scaling (mb : List Nat) (_hd : mb.all isDigit = true)
    (_h1 : 1 ≤ mb.length) (h6 : mb.length ≤ 6) :
    parse_micros? mb = some (lexParseNat mb * 10 ^ (6 - mb.length)) :=
  parse_micros_eq mb h6

/-- Witness for C5 at `".123"` (bytes `49 50 51`): `123 * 10 ^ 3`. -/
theorem fractional_micros_scaling_witness :
    parse_micros? [49, 50, 51] = some 123000 :=
  fractional_micros_scaling [49, 50, 51] (by decide) (by decide) (by decide)

/-- The `ParseIr<T>` intermediate from `convert.rs`: the original `Value`
plus the precomputed conversion output. -/
structure ParseIr (α : Type) where
  value : Value
  output : α
  deriving DecidableEq, Repr

/-- `ParseIr::commit`. -/
def ParseIr.commit {α : Type} (ir : ParseIr α) : α := ir.output

/-- `ParseIr::rollback` (total: always returns the stored value). -/
def ParseIr.rollback {α : Type} (ir : ParseIr α) : Option Value := some ir.value

/-- `ConvIr<bool> for ParseIr<bool>::new` from `convert.rs`: accepts
`Int(0)`, `Int(1)` and single-byte `Bytes` equal to `"0"` (0x30) or
`"1"` (0x31); every other value is a `FromValueError` carrying the
input. -/
def boolNew (v : Value) : Except Value (ParseIr Bool) :=
  match v with
  | Value.Int x =>
    if x = 0 then Except.ok ⟨Value.Int x, false⟩
    else if x = 1 then Except.ok ⟨Value.Int x, true⟩
    else Except.error (Value.Int x)
  | Value.Bytes bytes =>
    if bytes.length = 1 then
      if bytes.headD 0 = 48 then Except.ok ⟨Value.Bytes bytes, false⟩
      else if bytes.headD 0 = 49 then Except.ok ⟨Value.Bytes bytes, true⟩
      else Except.error (Value.Bytes bytes)
    else Except.error (Value.Bytes bytes)
  | v => Except.error v

/-- **C1 counterexample**: the claim says every `u64` value `x ≤ i64::MAX`
converts into `Value::Int(x)`; but `From<u64> for Value` yields
`Value::UInt(0)` at `x = 0`, not `Value::Int(0)`. -/
theorem value_from_u64_zero_counterexample :
    (0 : Nat) ≤ i64MaxNat ∧ value_from_u64 0 = Value.UInt 0 ∧
      value_from_u64 0 ≠ Value.Int 0 := by
  refine ⟨by decide, rfl, by decide⟩

/-- **C1 (amended)**: `From<u64>` always produces `UInt(x)`, regardless of
magnitude; the signed-preference rule holds for `usize`: values
`≤ i64::MAX` map to `Int`, larger values map to `UInt`. -/
theorem value_from_unsigned_spec :
    (∀ x : Nat, value_from_u64 x = Value.UInt x) ∧
    (∀ x : Nat, x ≤ i64MaxNat → value_from_usize x = Value.Int (Int.ofNat x)) ∧
    (∀ x : Nat, i64MaxNat < x → value_from_usize x = Value.UInt x) := by
  refine ⟨fun x => rfl, fun x hx => ?_, fun x hx => ?_⟩
  · simp [value_from_usize, hx]
  · simp [value_from_usize, Nat.not_le.mpr hx]

/-- Witness for C1's amended theorem at concrete inputs. -/
theorem value_from_unsigned_spec_witness :
    value_from_usize 5 = Value.Int 5 ∧
      value_from_usize 9223372036854775808 = Value.UInt 9223372036854775808 := by
  exact ⟨value_from_unsigned_spec.2.1 5 (by decide),
    value_from_unsigned_spec.2.2 9223372036854775808 (by decide)⟩

/-- **C7**: boolean conversion succeeds exactly on `Int(0)`, `Int(1)`,
`Bytes("0")`, `Bytes("1")` (yielding `false`, `true`, `false`, `true`),
and every other `Value` fails with a `FromValueError` carrying that
value. -/
theorem bool_conversion_exact (v : Value) :
    boolNew v =
      if v = Value.Int 0 then Except.ok ⟨Value.Int 0, false⟩
      else if v = Value.Int 1 then Except.ok ⟨Value.Int 1, true⟩
      else if v = Value.Bytes [48] then Except.ok ⟨Value.Bytes [48], false⟩
      else if v = Value.Bytes [49] then Except.ok ⟨Value.Bytes [49], true⟩
      else Except.error v := by
  match v with
  | Value.NULL => rfl
  | Value.Int x =>
    by_cases h0 : x = 0
    · subst h0; rfl
    · by_cases h1 : x = 1
      · subst h1; rfl
      · simp [boolNew, h0, h1, Value.Int.injEq]
  | Value.UInt x => rfl
  | Value.Float x => rfl
  | Value.Bytes bytes =>
    match bytes with
    | [] => rfl
    | [b] =>
      by_cases h0 : b = 48
      · subst h0; rfl
      · by_cases h1 : b = 49
        · subst h1; rfl
        · simp [boolNew, h0, h1, Value.Bytes.injEq, List.cons.injEq]
    | b :: c :: t =>
      simp [boolNew, Value.Bytes.injEq, List.cons.injEq]
  | Value.Date y mo d h mi s u => rfl
  | Value.Time neg d h mi s u => rfl

/-! ## The two-phase conversion protocol (`ConvIr`, `FromValue`)

Each Rust `impl ConvIr<T> for ...` becomes a triple of functions
(`new`, `commit`, `rollback`); `FromValueError(v)` is flattened to its
payload, so `new : Value → Except Value Ir`.  A `ConvM` bundles one
target type's triple so that `Option<T>` and the `Row` accessors can be
generic over the target type, exactly like the Rust trait objects.
`rollback` returns `Option Value` because `OptionIr`'s rollback has an
`unreachable!()` arm (`none` models that panic). -/

structure ConvM : Type 1 where
  Ir : Type
  Tgt : Type
  new : Value → Except Value Ir
  commit : Ir → Tgt
  rollback : Ir → Option Value

/-- `FromValue::from_value_opt`: build the intermediate, then commit. -/
def from_value_optM (c : ConvM) (v : Value) : Except Value c.Tgt :=
  match c.new v with
  | Except.ok ir => Except.ok (c.commit ir)
  | Except.error e => Except.error e

/-- `from_value` (the panicking form): `none` models the panic. -/
def from_valueM (c : ConvM) (v : Value) : Option c.Tgt :=
  match from_value_optM c v with
  | Except.ok t => some t
  | Except.error _ => none

/-- A conversion's `rollback` reconstructs exactly the `Value` its `new`
consumed. -/
def rollbackPreserves (c : ConvM) : Prop :=
  ∀ v ir, c.new v = Except.ok ir → c.rollback ir = some v

/-- A conversion's failure carries exactly the `Value` its `new`
consumed. -/
def errPreserves (c : ConvM) : Prop :=
  ∀ v w, c.new v = Except.error w → w = v

/-! ### Numeric conversions -/

/-- The per-width constants `::std::$t::MIN as i64`, `::std::$t::MAX as
i64` and `::std::$t::MAX as u64` used by `impl_from_value_num!`. -/
structure NumParams : Type where
  minI : Int
  maxI : Int
  maxU : Nat

/-- `impl_from_value_num!`'s `ConvIr<$t>::new`: `Int` within
`[min, max]` (with the source's quirk that a negative `MAX as i64`
widens `max` to `i64::MAX`), `UInt` up to `MAX as u64`, `Bytes` through
`lexical::try_parse` (passed in as `tryP`), everything else an error
carrying the input. -/
def numNew (p : NumParams) (tryP : List Nat → Option Int) (v : Value) :
    Except Value (ParseIr Int) :=
  match v with
  | Value.Int x =>
    let min := p.minI
    let max := if p.maxI < 0 then i64Max else p.maxI
    if min ≤ x ∧ x ≤ max then Except.ok ⟨Value.Int x, x⟩
    else Except.error (Value.Int x)
  | Value.UInt x =>
    if x ≤ p.maxU then Except.ok ⟨Value.UInt x, Int.ofNat x⟩
    else Except.error (Value.UInt x)
  | Value.Bytes bytes =>
    match tryP bytes with
    | some x => Except.ok ⟨Value.Bytes bytes, x⟩
    | none => Except.error (Value.Bytes bytes)
  | v => Except.error v

/-- The bundled `impl_from_value_num!` conversion. -/
def numConv (p : NumParams) (tryP : List Nat → Option Int) : ConvM :=
  ⟨ParseIr Int, Int, numNew p tryP, ParseIr.commit, ParseIr.rollback⟩

/-- `ConvIr<i64> for ParseIr<i64>::new`. -/
def i64New (tryP : List Nat → Option Int) (v : Value) :
    Except Value (ParseIr Int) :=
  match v with
  | Value.Int x => Except.ok ⟨Value.Int x, x⟩
  | Value.UInt x =>
    if x ≤ i64MaxNat then Except.ok ⟨Value.UInt x, Int.ofNat x⟩
    else Except.error (Value.UInt x)
  | Value.Bytes bytes =>
    match tryP bytes with
    | some x => Except.ok ⟨Value.Bytes bytes, x⟩
    | none => Except.error (Value.Bytes bytes)
  | v => Except.error v

/-- The bundled `i64` conversion. -/
def i64Conv (tryP : List Nat → Option Int) : ConvM :=
  ⟨ParseIr Int, Int, i64New tryP, ParseIr.commit, ParseIr.rollback⟩

/-- `ConvIr<u64> for ParseIr<u64>::new`. -/
def u64New (tryP : List Nat → Option Nat) (v : Value) :
    Except Value (ParseIr Nat) :=
  match v with
  | Value.Int x =>
    if 0 ≤ x then Except.ok ⟨Value.Int x, x.toNat⟩
    else Except.error (Value.Int x)
  | Value.UInt x => Except.ok ⟨Value.UInt x, x⟩
  | Value.Bytes bytes =>
    match tryP bytes with
    | some x => Except.ok ⟨Value.Bytes bytes, x⟩
    | none => Except.error (Value.Bytes bytes)
  | v => Except.error v

/-- The bundled `u64` conversion. -/
def u64Conv (tryP : List Nat → Option Nat) : ConvM :=
  ⟨ParseIr Nat, Nat, u64New tryP, ParseIr.commit, ParseIr.rollback⟩

/-- `ConvIr<f32> for ParseIr<f32>::new`.  `F` is the host `f32` type;
`inRange` is the `f32::MIN as f64 <= x <= f32::MAX as f64` test,
`toF32` the `as f32` cast and `tryP` lexical's float parse — all
external-crate or float semantics, so they are parameters. -/
def f32New (F : Type) (inRange : Nat → Bool) (toF32 : Nat → F)
    (tryP : List Nat → Option F) (v : Value) : Except Value (ParseIr F) :=
  match v with
  | Value.Float x =>
    if inRange x then Except.ok ⟨Value.Float x, toF32 x⟩
    else Except.error (Value.Float x)
  | Value.Bytes bytes =>
    match tryP bytes with
    | some f => Except.ok ⟨Value.Bytes bytes, f⟩
    | none => Except.error (Value.Bytes bytes)
  | v => Except.error v

/-- The bundled `f32` conversion. -/
def f32Conv (F : Type) (inRange : Nat → Bool) (toF32 : Nat → F)
    (tryP : List Nat → Option F) : ConvM :=
  ⟨ParseIr F, F, f32New F inRange toF32 tryP, ParseIr.commit, ParseIr.rollback⟩

/-- `ConvIr<f64> for ParseIr<f64>::new`: any `Float` succeeds unchanged;
`Bytes` through lexical's float parse. -/
def f64New (tryP : List Nat → Option Nat) (v : Value) :
    Except Value (ParseIr Nat) :=
  match v with
  | Value.Float x => Except.ok ⟨Value.Float x, x⟩
  | Value.Bytes bytes =>
    match tryP bytes with
    | some f => Except.ok ⟨Value.Bytes bytes, f⟩
    | none => Except.error (Value.Bytes bytes)
  | v => Except.error v

/-- The bundled `f64` conversion. -/
def f64Conv (tryP : List Nat → Option Nat) : ConvM :=
  ⟨ParseIr Nat, Nat, f64New tryP, ParseIr.commit, ParseIr.rollback⟩

/-- The bundled `bool` conversion (`boolNew` above). -/
def boolConv : ConvM :=
  ⟨ParseIr Bool, Bool, boolNew, ParseIr.commit, ParseIr.rollback⟩

/-! ### String, bytes, identity -/

/-- `StringIr::new`: `Bytes` that pass the (external) UTF-8 check keep
their buffer; a Rust `String` is carried as its byte list, so `commit`
(`from_utf8_unchecked`) is the identity on the buffer. -/
def stringNew (isUtf8 : List Nat → Bool) (v : Value) :
    Except Value (List Nat) :=
  match v with
  | Value.Bytes bytes =>
    if isUtf8 bytes then Except.ok bytes
    else Except.error (Value.Bytes bytes)
  | v => Except.error v

/-- The bundled `String` conversion (`StringIr`). -/
def stringConv (isUtf8 : List Nat → Bool) : ConvM :=
  ⟨List Nat, List Nat, stringNew isUtf8, fun b => b, fun b => some (Value.Bytes b)⟩

/-- `BytesIr::new`: only `Bytes` succeeds. -/
def bytesNew (v : Value) : Except Value (List Nat) :=
  match v with
  | Value.Bytes bytes => Except.ok bytes
  | v => Except.error v

/-- The bundled `Vec<u8>` conversion (`BytesIr`). -/
def bytesConv : ConvM :=
  ⟨List Nat, List Nat, bytesNew, fun b => b, fun b => some (Value.Bytes b)⟩

/-- The bundled identity conversion `ConvIr<Value> for Value`. -/
def valueConv : ConvM :=
  ⟨Value, Value, fun v => Except.ok v, fun v => v, fun v => some v⟩

/-! ### Temporal conversions -/

/-- `ConvIr<NaiveDateTime>::new`: decode the `Date` variant or parse
`Bytes`, then validate through chrono's `from_ymd_opt` /
`from_hms_micro_opt` (parameters `ymdOpt` / `hmsOpt` over abstract
chrono types `D` and `T`); an invalid date/time is an error carrying
the stored value. -/
def naiveDateTimeNew (isNd : Nat → Bool) (D T : Type)
    (ymdOpt : Int → Nat → Nat → Option D)
    (hmsOpt : Nat → Nat → Nat → Nat → Option T) (v : Value) :
    Except Value (ParseIr (D × T)) :=
  match v with
  | Value.Date y mo d h mi s u =>
    match ymdOpt (Int.ofNat y) mo d, hmsOpt h mi s u with
    | some date, some time => Except.ok ⟨Value.Date y mo d h mi s u, (date, time)⟩
    | _, _ => Except.error (Value.Date y mo d h mi s u)
  | Value.Bytes bytes =>
    match parse_mysql_datetime_string isNd bytes with
    | some (y, mo, d, h, mi, s, u) =>
      match ymdOpt (Int.ofNat y) mo d, hmsOpt h mi s u with
      | some date, some time => Except.ok ⟨Value.Bytes bytes, (date, time)⟩
      | _, _ => Except.error (Value.Bytes bytes)
    | none => Except.error (Value.Bytes bytes)
  | v => Except.error v

/-- The bundled `NaiveDateTime` conversion. -/
def naiveDateTimeConv (isNd : Nat → Bool) (D T : Type)
    (ymdOpt : Int → Nat → Nat → Option D)
    (hmsOpt : Nat → Nat → Nat → Nat → Option T) : ConvM :=
  ⟨ParseIr (D × T), D × T, naiveDateTimeNew isNd D T ymdOpt hmsOpt,
    ParseIr.commit, ParseIr.rollback⟩

/-- `ConvIr<NaiveDate>::new`: like the datetime conversion but only the
date fields are validated (time fields of a parsed text are discarded). -/
def naiveDateNew (isNd : Nat → Bool) (D : Type)
    (ymdOpt : Int → Nat → Nat → Option D) (v : Value) :
    Except Value (ParseIr D) :=
  match v with
  | Value.Date y mo d h mi s u =>
    match ymdOpt (Int.ofNat y) mo d with
    | some date => Except.ok ⟨Value.Date y mo d h mi s u, date⟩
    | none => Except.error (Value.Date y mo d h mi s u)
  | Value.Bytes bytes =>
    match parse_mysql_datetime_string isNd bytes with
    | some (y, mo, d, _, _, _, _) =>
      match ymdOpt (Int.ofNat y) mo d with
      | some date => Except.ok ⟨Value.Bytes bytes, date⟩
      | none => Except.error (Value.Bytes bytes)
    | none => Except.error (Value.Bytes bytes)
  | v => Except.error v

/-- The bundled `NaiveDate` conversion. -/
def naiveDateConv (isNd : Nat → Bool) (D : Type)
    (ymdOpt : Int → Nat → Nat → Option D) : ConvM :=
  ⟨ParseIr D, D, naiveDateNew isNd D ymdOpt, ParseIr.commit, ParseIr.rollback⟩

/-- `ConvIr<NaiveTime>::new`: only a non-negative `Time` with zero days,
or `Bytes` parsing to a non-negative time, validated through
`from_hms_micro_opt`. -/
def naiveTimeNew (isNd : Nat → Bool) (T : Type)
    (hmsOpt : Nat → Nat → Nat → Nat → Option T)
    (v : Value) : Except Value (ParseIr T) :=
  match v with
  | Value.Time isNeg days h m s u =>
    if isNeg = false ∧ days = 0 then
      match hmsOpt h m s u with
      | some time => Except.ok ⟨Value.Time isNeg days h m s u, time⟩
      | none => Except.error (Value.Time isNeg days h m s u)
    else Except.error (Value.Time isNeg days h m s u)
  | Value.Bytes bytes =>
    match parse_mysql_time_string isNd bytes with
    | some (false, h, m, s, u) =>
      match hmsOpt h m s u with
      | some time => Except.ok ⟨Value.Bytes bytes, time⟩
      | none => Except.error (Value.Bytes bytes)
    | _ => Except.error (Value.Bytes bytes)
  | v => Except.error v

/-- The bundled `NaiveTime` conversion. -/
def naiveTimeConv (isNd : Nat → Bool) (T : Type)
    (hmsOpt : Nat → Nat → Nat → Nat → Option T) : ConvM :=
  ⟨ParseIr T, T, naiveTimeNew isNd T hmsOpt, ParseIr.commit, ParseIr.rollback⟩

/-- `ConvIr<Timespec>::new` over an abstract `time::Timespec` type `TS`:
`tmToTs` is the `Tm { ... }.to_timespec()` construction and `strp` the
`from_utf8`-then-`strptime` fallback — both external `time`-crate
behaviour. -/
def timespecNew (TS : Type) (tmToTs : Nat → Nat → Nat → Nat → Nat → Nat → Nat → TS)
    (strp : List Nat → Option TS) (v : Value) : Except Value (ParseIr TS) :=
  match v with
  | Value.Date y mo d h mi s u =>
    Except.ok ⟨Value.Date y mo d h mi s u, tmToTs y mo d h mi s u⟩
  | Value.Bytes bytes =>
    match strp bytes with
    | some ts => Except.ok ⟨Value.Bytes bytes, ts⟩
    | none => Except.error (Value.Bytes bytes)
  | v => Except.error v

/-- The bundled `Timespec` conversion. -/
def timespecConv (TS : Type) (tmToTs : Nat → Nat → Nat → Nat → Nat → Nat → Nat → TS)
    (strp : List Nat → Option TS) : ConvM :=
  ⟨ParseIr TS, TS, timespecNew TS tmToTs strp, ParseIr.commit, ParseIr.rollback⟩

/-- `std::time::Duration` as (seconds, nanoseconds). -/
structure StdDuration : Type where
  secs : Nat
  nanos : Nat
  deriving DecidableEq, Repr

/-- `Duration::new` (normalises nanoseconds into seconds). -/
def StdDuration.make (s n : Nat) : StdDuration :=
  ⟨s + n / 1000000000, n % 1000000000⟩

/-- `ConvIr<Duration>::new` (the unsigned `std::time::Duration` target):
only a non-negative `Time` variant or `Bytes` parsing with a
non-negative sign succeed; the `microseconds as u32 * 1000` product is
`u32` arithmetic, hence the `% 2^32`. -/
def durationNew (isNd : Nat → Bool) (v : Value) : Except Value (ParseIr StdDuration) :=
  match v with
  | Value.Time isNeg days hours minutes seconds microseconds =>
    if isNeg = false then
      Except.ok ⟨Value.Time isNeg days hours minutes seconds microseconds,
        StdDuration.make
          (seconds + minutes * 60 + hours * 60 * 60 + days * 60 * 60 * 24)
          ((microseconds * 1000) % 4294967296)⟩
    else Except.error (Value.Time isNeg days hours minutes seconds microseconds)
  | Value.Bytes bytes =>
    match parse_mysql_time_string isNd bytes with
    | some (false, hours, minutes, seconds, microseconds) =>
      Except.ok ⟨Value.Bytes bytes,
        StdDuration.make (seconds + minutes * 60 + hours * 60 * 60)
          ((microseconds * 1000) % 4294967296)⟩
    | _ => Except.error (Value.Bytes bytes)
  | v => Except.error v

/-- The bundled `std::time::Duration` conversion. -/
def durationConv (isNd : Nat → Bool) : ConvM :=
  ⟨ParseIr StdDuration, StdDuration, durationNew isNd, ParseIr.commit,
    ParseIr.rollback⟩

/-- A `time::Duration` value in microseconds (every component the code
feeds it is a whole number of microseconds). -/
def timeDurMicros (days hours minutes seconds microseconds : Nat) : Int :=
  Int.ofNat days * 86400000000 + Int.ofNat hours * 3600000000 +
    Int.ofNat minutes * 60000000 + Int.ofNat seconds * 1000000 +
    Int.ofNat microseconds

/-- `ConvIr<time::Duration>::new` (the signed duration target): any sign
succeeds, and a negative source negates the accumulated duration. -/
def timeDurationNew (isNd : Nat → Bool) (v : Value) : Except Value (ParseIr Int) :=
  match v with
  | Value.Time isNeg days hours minutes seconds microseconds =>
    Except.ok ⟨Value.Time isNeg days hours minutes seconds microseconds,
      if isNeg then -timeDurMicros days hours minutes seconds microseconds
      else timeDurMicros days hours minutes seconds microseconds⟩
  | Value.Bytes bytes =>
    match parse_mysql_time_string isNd bytes with
    | some (isNeg, hours, minutes, seconds, microseconds) =>
      Except.ok ⟨Value.Bytes bytes,
        if isNeg then -timeDurMicros 0 hours minutes seconds microseconds
        else timeDurMicros 0 hours minutes seconds microseconds⟩
    | none => Except.error (Value.Bytes bytes)
  | v => Except.error v

/-- The bundled `time::Duration` conversion. -/
def timeDurationConv (isNd : Nat → Bool) : ConvM :=
  ⟨ParseIr Int, Int, timeDurationNew isNd, ParseIr.commit, ParseIr.rollback⟩

/-! ### Uuid and `Option<T>` -/

/-- The `UuidIr` intermediate: decoded value plus the original buffer. -/
structure UuidIr (U : Type) : Type where
  val : U
  bytes : List Nat

/-- `ConvIr<Uuid>::new` over an abstract `Uuid` type `U` with external
`Uuid::from_slice` decoder. -/
def uuidNew (U : Type) (fromSlice : List Nat → Option U) (v : Value) :
    Except Value (UuidIr U) :=
  match v with
  | Value.Bytes bytes =>
    match fromSlice bytes with
    | some val => Except.ok ⟨val, bytes⟩
    | none => Except.error (Value.Bytes bytes)
  | v => Except.error v

/-- The bundled `Uuid` conversion. -/
def uuidConv (U : Type) (fromSlice : List Nat → Option U) : ConvM :=
  ⟨UuidIr U, U, uuidNew U fromSlice, fun ir => ir.val,
    fun ir => some (Value.Bytes ir.bytes)⟩

/-- The `OptionIr` intermediate of a `Value`-to-`Option<T>` conversion. -/
structure OptionIr (I : Type) : Type where
  value : Option Value
  ir : Option I

/-- `ConvIr<Option<T>>::new`: `NULL` succeeds with no inner
intermediate; anything else delegates to the inner conversion. -/
def optionNew (c : ConvM) (v : Value) : Except Value (OptionIr c.Ir) :=
  match v with
  | Value.NULL => Except.ok ⟨some Value.NULL, none⟩
  | v =>
    match c.new v with
    | Except.ok ir => Except.ok ⟨none, some ir⟩
    | Except.error err => Except.error err

/-- `ConvIr<Option<T>>::commit`. -/
def optionCommit (c : ConvM) (oir : OptionIr c.Ir) : Option c.Tgt :=
  match oir.ir with
  | some ir => some (c.commit ir)
  | none => none

/-- `ConvIr<Option<T>>::rollback`: reproduce the stored `NULL` or
delegate; the `(none, none)` state is the Rust `unreachable!()` panic. -/
def optionRollback (c : ConvM) (oir : OptionIr c.Ir) : Option Value :=
  match oir.value with
  | some v => some v
  | none =>
    match oir.ir with
    | some ir => c.rollback ir
    | none => none

/-- The bundled `Option<T>` conversion over an inner conversion. -/
def optionConv (c : ConvM) : ConvM :=
  ⟨OptionIr c.Ir, Option c.Tgt, optionNew c, optionCommit c, optionRollback c⟩

/-! ### Rollback / error preservation, per conversion -/

theorem numConv_rollback (p : NumParams) (tryP : List Nat → Option Int) :
    rollbackPreserves (numConv p tryP) := by
  intro v ir h
  cases v <;> simp only [numConv, numNew] at h <;>
    ((repeat' split at h) <;> first | (cases h; rfl) | exact Except.noConfusion h)

theorem numConv_err (p : NumParams) (tryP : List Nat → Option Int) :
    errPreserves (numConv p tryP) := by
  intro v w h
  cases v <;> simp only [numConv, numNew] at h <;>
    ((repeat' split at h) <;> first | (cases h; rfl) | exact Except.noConfusion h)

theorem i64Conv_rollback (tryP : List Nat → Option Int) :
    rollbackPreserves (i64Conv tryP) := by
  intro v ir h
  cases v <;> simp only [i64Conv, i64New] at h <;>
    ((repeat' split at h) <;> first | (cases h; rfl) | exact Except.noConfusion h)

theorem i64Conv_err (tryP : List Nat → Option Int) :
    errPreserves (i64Conv tryP) := by
  intro v w h
  cases v <;> simp only [i64Conv, i64New] at h <;>
    ((repeat' split at h) <;> first | (cases h; rfl) | exact Except.noConfusion h)

theorem u64Conv_rollback (tryP : List Nat → Option Nat) :
    rollbackPreserves (u64Conv tryP) := by
  intro v ir h
  cases v <;> simp only [u64Conv, u64New] at h <;>
    ((repeat' split at h) <;> first | (cases h; rfl) | exact Except.noConfusion h)

theorem u64Conv_err (tryP : List Nat → Option Nat) :
    errPreserves (u64Conv tryP) := by
  intro v w h
  cases v <;> simp only [u64Conv, u64New] at h <;>
    ((repeat' split at h) <;> first | (cases h; rfl) | exact Except.noConfusion h)

theorem f32Conv_rollback (F : Type) (inRange : Nat → Bool) (toF32 : Nat → F)
    (tryP : List Nat → Option F) :
    rollbackPreserves (f32Conv F inRange toF32 tryP) := by
  intro v ir h
  cases v <;> simp only [f32Conv, f32New] at h <;>
    ((repeat' split at h) <;> first | (cases h; rfl) | exact Except.noConfusion h)

theorem f32Conv_err (F : Type) (inRange : Nat → Bool) (toF32 : Nat → F)
    (tryP : List Nat → Option F) :
    errPreserves (f32Conv F inRange toF32 tryP) := by
  intro v w h
  cases v <;> simp only [f32Conv, f32New] at h <;>
    ((repeat' split at h) <;> first | (cases h; rfl) | exact Except.noConfusion h)

theorem f64Conv_rollback (tryP : List Nat → Option Nat) :
    rollbackPreserves (f64Conv tryP) := by
  intro v ir h
  cases v <;> simp only [f64Conv, f64New] at h <;>
    ((repeat' split at h) <;> first | (cases h; rfl) | exact Except.noConfusion h)

theorem f64Conv_err (tryP : List Nat → Option Nat) :
    errPreserves (f64Conv tryP) := by
  intro v w h
  cases v <;> simp only [f64Conv, f64New] at h <;>
    ((repeat' split at h) <;> first | (cases h; rfl) | exact Except.noConfusion h)

theorem boolConv_rollback :
    rollbackPreserves (boolConv) := by
  intro v ir h
  cases v <;> simp only [boolConv, boolNew] at h <;>
    ((repeat' split at h) <;> first | (cases h; rfl) | exact Except.noConfusion h)

theorem boolConv_err :
    errPreserves (boolConv) := by
  intro v w h
  cases v <;> simp only [boolConv, boolNew] at h <;>
    ((repeat' split at h) <;> first | (cases h; rfl) | exact Except.noConfusion h)

theorem stringConv_rollback (isUtf8 : List Nat → Bool) :
    rollbackPreserves (stringConv isUtf8) := by
  intro v ir h
  cases v <;> simp only [stringConv, stringNew] at h <;>
    ((repeat' split at h) <;> first | (cases h; rfl) | exact Except.noConfusion h)

theorem stringConv_err (isUtf8 : List Nat → Bool) :
    errPreserves (stringConv isUtf8) := by
  intro v w h
  cases v <;> simp only [stringConv, stringNew] at h <;>
    ((repeat' split at h) <;> first | (cases h; rfl) | exact Except.noConfusion h)

theorem bytesConv_rollback :
    rollbackPreserves (bytesConv) := by
  intro v ir h
  cases v <;> simp only [bytesConv, bytesNew] at h <;>
    first | (cases h; rfl) | exact Except.noConfusion h

theorem bytesConv_err :
    errPreserves (bytesConv) := by
  intro v w h
  cases v <;> simp only [bytesConv, bytesNew] at h <;>
    first | (cases h; rfl) | exact Except.noConfusion h

theorem naiveDateTimeConv_rollback (isNd : Nat → Bool) (D T : Type)
    (ymdOpt : Int → Nat → Nat → Option D)
    (hmsOpt : Nat → Nat → Nat → Nat → Option T) :
    rollbackPreserves (naiveDateTimeConv isNd D T ymdOpt hmsOpt) := by
  intro v ir h
  cases v <;> simp only [naiveDateTimeConv, naiveDateTimeNew] at h <;>
    ((repeat' split at h) <;> first | (cases h; rfl) | exact Except.noConfusion h)

theorem naiveDateTimeConv_err (isNd : Nat → Bool) (D T : Type)
    (ymdOpt : Int → Nat → Nat → Option D)
    (hmsOpt : Nat → Nat → Nat → Nat → Option T) :
    errPreserves (naiveDateTimeConv isNd D T ymdOpt hmsOpt) := by
  intro v w h
  cases v <;> simp only [naiveDateTimeConv, naiveDateTimeNew] at h <;>
    ((repeat' split at h) <;> first | (cases h; rfl) | exact Except.noConfusion h)

theorem naiveDateConv_rollback (isNd : Nat → Bool) (D : Type)
    (ymdOpt : Int → Nat → Nat → Option D) :
    rollbackPreserves (naiveDateConv isNd D ymdOpt) := by
  intro v ir h
  cases v <;> simp only [naiveDateConv, naiveDateNew] at h <;>
    ((repeat' split at h) <;> first | (cases h; rfl) | exact Except.noConfusion h)

theorem naiveDateConv_err (isNd : Nat → Bool) (D : Type)
    (ymdOpt : Int → Nat → Nat → Option D) :
    errPreserves (naiveDateConv isNd D ymdOpt) := by
  intro v w h
  cases v <;> simp only [naiveDateConv, naiveDateNew] at h <;>
    ((repeat' split at h) <;> first | (cases h; rfl) | exact Except.noConfusion h)

theorem naiveTimeConv_rollback (isNd : Nat → Bool) (T : Type)
    (hmsOpt : Nat → Nat → Nat → Nat → Option T) :
    rollbackPreserves (naiveTimeConv isNd T hmsOpt) := by
  intro v ir h
  cases v <;> simp only [naiveTimeConv, naiveTimeNew] at h <;>
    ((repeat' split at h) <;> first | (cases h; rfl) | exact Except.noConfusion h)

theorem naiveTimeConv_err (isNd : Nat → Bool) (T : Type)
    (hmsOpt : Nat → Nat → Nat → Nat → Option T) :
    errPreserves (naiveTimeConv isNd T hmsOpt) := by
  intro v w h
  cases v <;> simp only [naiveTimeConv, naiveTimeNew] at h <;>
    ((repeat' split at h) <;> first | (cases h; rfl) | exact Except.noConfusion h)

theorem timespecConv_rollback (TS : Type) (tmToTs : Nat → Nat → Nat → Nat → Nat → Nat → Nat → TS)
    (strp : List Nat → Option TS) :
    rollbackPreserves (timespecConv TS tmToTs strp) := by
  intro v ir h
  cases v <;> simp only [timespecConv, timespecNew] at h <;>
    ((repeat' split at h) <;> first | (cases h; rfl) | exact Except.noConfusion h)

theorem timespecConv_err (TS : Type) (tmToTs : Nat → Nat → Nat → Nat → Nat → Nat → Nat → TS)
    (strp : List Nat → Option TS) :
    errPreserves (timespecConv TS tmToTs strp) := by
  intro v w h
  cases v <;> simp only [timespecConv, timespecNew] at h <;>
    ((repeat' split at h) <;> first | (cases h; rfl) | exact Except.noConfusion h)

theorem durationConv_rollback (isNd : Nat → Bool) :
    rollbackPreserves (durationConv isNd) := by
  intro v ir h
  cases v <;> simp only [durationConv, durationNew] at h <;>
    ((repeat' split at h) <;> first | (cases h; rfl) | exact Except.noConfusion h)

theorem durationConv_err (isNd : Nat → Bool) :
    errPreserves (durationConv isNd) := by
  intro v w h
  cases v <;> simp only [durationConv, durationNew] at h <;>
    ((repeat' split at h) <;> first | (cases h; rfl) | exact Except.noConfusion h)

theorem timeDurationConv_rollback (isNd : Nat → Bool) :
    rollbackPreserves (timeDurationConv isNd) := by
  intro v ir h
  cases v <;> simp only [timeDurationConv, timeDurationNew] at h <;>
    ((repeat' split at h) <;> first | (cases h; rfl) | exact Except.noConfusion h)

theorem timeDurationConv_err (isNd : Nat → Bool) :
    errPreserves (timeDurationConv isNd) := by
  intro v w h
  cases v <;> simp only [timeDurationConv, timeDurationNew] at h <;>
    ((repeat' split at h) <;> first | (cases h; rfl) | exact Except.noConfusion h)

theorem uuidConv_rollback (U : Type) (fromSlice : List Nat → Option U) :
    rollbackPreserves (uuidConv U fromSlice) := by
  intro v ir h
  cases v <;> simp only [uuidConv, uuidNew] at h <;>
    ((repeat' split at h) <;> first | (cases h; rfl) | exact Except.noConfusion h)

theorem uuidConv_err (U : Type) (fromSlice : List Nat → Option U) :
    errPreserves (uuidConv U fromSlice) := by
  intro v w h
  cases v <;> simp only [uuidConv, uuidNew] at h <;>
    ((repeat' split at h) <;> first | (cases h; rfl) | exact Except.noConfusion h)

theorem valueConv_rollback : rollbackPreserves valueConv := by
  intro v ir h
  cases h
  rfl

theorem valueConv_err : errPreserves valueConv := by
  intro v w h
  exact Except.noConfusion h

theorem optionConv_rollback (c : ConvM) (hc : rollbackPreserves c) :
    rollbackPreserves (optionConv c) := by
  intro v ir h
  cases v <;> simp only [optionConv, optionNew] at h
  case NULL => cases h; rfl
  all_goals
    split at h
  case _ ir2 hin =>
    cases h
    simp only [optionConv, optionRollback]
    exact hc _ _ hin
  all_goals
    first
      | exact Except.noConfusion h
      | (cases h
         simp only [optionConv, optionRollback]
         rename_i ir2 hin
         exact hc _ _ hin)

theorem optionConv_err (c : ConvM) (hc : errPreserves c) :
    errPreserves (optionConv c) := by
  intro v w h
  cases v <;> simp only [optionConv, optionNew] at h
  case NULL => exact Except.noConfusion h
  all_goals
    split at h
  all_goals
    first
      | exact Except.noConfusion h
      | (cases h
         rename_i e hin
         exact hc _ _ hin)

/-- **C2**: for every `Value` and every supported target type —
numeric (all widths via `impl_from_value_num!`, plus the bespoke `i64`,
`u64`, `f32`, `f64`), boolean, string, raw bytes, identity, temporal
(`NaiveDateTime`, `NaiveDate`, `NaiveTime`, `Timespec`, both duration
targets), `Uuid`, and `Option<T>` over any inner conversion — if
`ConvIr::new` succeeds then `rollback` returns exactly the original
`Value`.  Quantification over the function parameters covers every
possible behaviour of the external crates. -/
theorem rollback_reconstructs_original :
    (∀ p tryP, rollbackPreserves (numConv p tryP)) ∧
    (∀ tryP, rollbackPreserves (i64Conv tryP)) ∧
    (∀ tryP, rollbackPreserves (u64Conv tryP)) ∧
    (∀ (F : Type) inRange toF32 tryP,
      rollbackPreserves (f32Conv F inRange toF32 tryP)) ∧
    (∀ tryP, rollbackPreserves (f64Conv tryP)) ∧
    rollbackPreserves boolConv ∧
    (∀ isUtf8, rollbackPreserves (stringConv isUtf8)) ∧
    rollbackPreserves bytesConv ∧
    rollbackPreserves valueConv ∧
    (∀ isNd (D T : Type) ymdOpt hmsOpt,
      rollbackPreserves (naiveDateTimeConv isNd D T ymdOpt hmsOpt)) ∧
    (∀ isNd (D : Type) ymdOpt, rollbackPreserves (naiveDateConv isNd D ymdOpt)) ∧
    (∀ isNd (T : Type) hmsOpt, rollbackPreserves (naiveTimeConv isNd T hmsOpt)) ∧
    (∀ (TS : Type) tmToTs strp, rollbackPreserves (timespecConv TS tmToTs strp)) ∧
    (∀ isNd, rollbackPreserves (durationConv isNd)) ∧
    (∀ isNd, rollbackPreserves (timeDurationConv isNd)) ∧
    (∀ (U : Type) fromSlice, rollbackPreserves (uuidConv U fromSlice)) ∧
    (∀ c : ConvM, rollbackPreserves c → rollbackPreserves (optionConv c)) :=
  ⟨numConv_rollback, i64Conv_rollback, u64Conv_rollback, f32Conv_rollback,
    f64Conv_rollback, boolConv_rollback, stringConv_rollback,
    bytesConv_rollback, valueConv_rollback, naiveDateTimeConv_rollback,
    naiveDateConv_rollback, naiveTimeConv_rollback, timespecConv_rollback,
    durationConv_rollback, timeDurationConv_rollback, uuidConv_rollback,
    optionConv_rollback⟩

/-- Witness for C2: committing-then-rolling-back concrete intermediates
(`bool` from `Int(1)`, `Option<bool>` from `NULL`). -/
theorem rollback_reconstructs_original_witness :
    (optionConv boolConv).rollback ⟨some Value.NULL, none⟩ = some Value.NULL ∧
      boolConv.rollback ⟨Value.Int 1, true⟩ = some (Value.Int 1) := by
  obtain ⟨-, -, -, -, -, hbool, -, -, -, -, -, -, -, -, -, -, hopt⟩ :=
    rollback_reconstructs_original
  exact ⟨hopt boolConv hbool Value.NULL ⟨some Value.NULL, none⟩ rfl,
    hbool (Value.Int 1) ⟨Value.Int 1, true⟩ rfl⟩

/-- **C3**: a failing `from_value_opt` returns `FromValueError(w)` with
`w` equal to the original input, for every supported target type: the
generic bridge from `ConvIr::new` failure to `from_value_opt` failure,
plus error preservation of every conversion's `new` (same coverage as
the rollback theorem). -/
theorem conversion_error_preserves_input :
    (∀ (c : ConvM) (v w : Value), errPreserves c →
      from_value_optM c v = Except.error w → w = v) ∧
    (∀ p tryP, errPreserves (numConv p tryP)) ∧
    (∀ tryP, errPreserves (i64Conv tryP)) ∧
    (∀ tryP, errPreserves (u64Conv tryP)) ∧
    (∀ (F : Type) inRange toF32 tryP,
      errPreserves (f32Conv F inRange toF32 tryP)) ∧
    (∀ tryP, errPreserves (f64Conv tryP)) ∧
    errPreserves boolConv ∧
    (∀ isUtf8, errPreserves (stringConv isUtf8)) ∧
    errPreserves bytesConv ∧
    errPreserves valueConv ∧
    (∀ isNd (D T : Type) ymdOpt hmsOpt,
      errPreserves (naiveDateTimeConv isNd D T ymdOpt hmsOpt)) ∧
    (∀ isNd (D : Type) ymdOpt, errPreserves (naiveDateConv isNd D ymdOpt)) ∧
    (∀ isNd (T : Type) hmsOpt, errPreserves (naiveTimeConv isNd T hmsOpt)) ∧
    (∀ (TS : Type) tmToTs strp, errPreserves (timespecConv TS tmToTs strp)) ∧
    (∀ isNd, errPreserves (durationConv isNd)) ∧
    (∀ isNd, errPreserves (timeDurationConv isNd)) ∧
    (∀ (U : Type) fromSlice, errPreserves (uuidConv U fromSlice)) ∧
    (∀ c : ConvM, errPreserves c → errPreserves (optionConv c)) := by
  refine ⟨?_, numConv_err, i64Conv_err, u64Conv_err, f32Conv_err,
    f64Conv_err, boolConv_err, stringConv_err, bytesConv_err, valueConv_err,
    naiveDateTimeConv_err, naiveDateConv_err, naiveTimeConv_err,
    timespecConv_err, durationConv_err, timeDurationConv_err, uuidConv_err,
    optionConv_err⟩
  intro c v w hc h
  simp only [from_value_optM] at h
  split at h
  · exact Except.noConfusion h
  · cases h
    rename_i e hin
    exact hc _ _ hin

/-- Witness for C3: a `bool` conversion failure on `Float` hands back
the very same value. -/
theorem conversion_error_preserves_input_witness :
    from_value_optM boolConv (Value.Float 7) = Except.error (Value.Float 7) ∧
      (Value.Float 7 : Value) = Value.Float 7 := by
  obtain ⟨hbridge, -, -, -, -, -, hbool, -⟩ := conversion_error_preserves_input
  exact ⟨rfl, hbridge boolConv (Value.Float 7) (Value.Float 7) hbool rfl⟩

/-- Every successful result of the time-layout dispatch carries the sign
flag it was given. -/
theorem timeKindDispatch_sign (isNd : Nat → Bool) (isNeg : Bool)
    (rest : List Nat) (t : Bool × Nat × Nat × Nat × Nat)
    (h : timeKindDispatch isNd isNeg rest = some (some t)) : t.1 = isNeg := by
  simp only [timeKindDispatch] at h
  split at h
  · simp only [Option.bind_eq_some] at h
    obtain ⟨hs, -, ms, -, ss, -, h⟩ := h
    cases h
    rfl
  · split at h
    · simp only [Option.bind_eq_some] at h
      obtain ⟨hs, -, ms, -, ss, -, h⟩ := h
      cases h
      rfl
    · split at h
      · simp only [Option.bind_eq_some] at h
        obtain ⟨hs, -, ms, -, ss, -, us, -, mi, -, h⟩ := h
        cases h
        rfl
      · split at h
        · simp only [Option.bind_eq_some] at h
          obtain ⟨hs, -, ms, -, ss, -, us, -, mi, -, h⟩ := h
          cases h
          rfl
        · simp at h

/-- A time text that begins with `'-'` can only parse as negative (when
the parser terminates at all). -/
theorem parse_time_neg (isNd : Nat → Bool) (bytes : List Nat)
    (t : Bool × Nat × Nat × Nat × Nat) (hhead : bytes.head? = some 45)
    (hp : parse_mysql_time_string? isNd bytes = some (some t)) :
    t.1 = true := by
  by_cases hlen : bytes.length < 8
  · simp [parse_mysql_time_string?, hlen] at hp
  · have h1 : 1 ≤ bytes.length := by omega
    simp only [parse_mysql_time_string?, hlen, if_false, hhead,
      Option.some_bind, sliceFrom?, h1, if_true, decide_True, ite_true,
      ite_false] at hp
    exact timeKindDispatch_sign isNd true (bytes.drop 1) t hp

/-- **C6** (code bug): a negative `Time` value always fails conversion
to the unsigned `std::time::Duration` target with a failure carrying
the input, and so does a `'-'`-headed time text whenever the parser
terminates — never an absolute value — while the signed
`time::Duration` target accepts the same sources and yields the negated
duration; but on the `'-'`-headed `timeBugInput` the parser invoked by
`ConvIr<Duration>::new` reaches the `parse_micros` underflow, so the
conversion panics instead of returning the claimed `ConversionFailure`. -/
theorem negative_time_duration_targets :
    (∀ (isNd : Nat → Bool) (d h m s u : Nat),
      durationNew isNd (Value.Time true d h m s u) =
        Except.error (Value.Time true d h m s u)) ∧
    (∀ isNd : Nat → Bool, isNd 48 = true → isNd 1632 = true →
      parse_mysql_time_string? isNd (45 :: timeBugInput) = none) ∧
    (∀ (isNd : Nat → Bool) (bytes : List Nat)
        (res : Option (Bool × Nat × Nat × Nat × Nat)),
      bytes.head? = some 45 → parse_mysql_time_string? isNd bytes = some res →
      durationNew isNd (Value.Bytes bytes) = Except.error (Value.Bytes bytes)) ∧
    (∀ (isNd : Nat → Bool) (d h m s u : Nat),
      timeDurationNew isNd (Value.Time true d h m s u) =
        Except.ok ⟨Value.Time true d h m s u, -timeDurMicros d h m s u⟩) ∧
    (∀ (isNd : Nat → Bool) (bytes : List Nat) (h m s u : Nat),
      parse_mysql_time_string? isNd bytes = some (some (true, h, m, s, u)) →
      timeDurationNew isNd (Value.Bytes bytes) =
        Except.ok ⟨Value.Bytes bytes, -timeDurMicros 0 h m s u⟩) ∧
    (∀ (isNd : Nat → Bool) (bytes : List Nat) (t : Bool × Nat × Nat × Nat × Nat),
      bytes.head? = some 45 → parse_mysql_time_string? isNd bytes = some (some t) →
      t.1 = true) := by
  refine ⟨fun isNd d h m s u => rfl, ?_, ?_, fun isNd d h m s u => rfl, ?_,
    parse_time_neg⟩
  · intro isNd h48 h660
    have hd := timeKindDispatch_underflow isNd true h48 h660
    simp only [parse_mysql_time_string?]
    rw [if_neg (by decide)]
    rw [show (45 :: timeBugInput).head? = some 45 from rfl]
    simp only [Option.some_bind, if_true, decide_True]
    rw [show sliceFrom? (45 :: timeBugInput) 1 = some timeBugInput from rfl]
    simp only [Option.some_bind]
    exact hd
  · intro isNd bytes res hhead hp
    have hw : parse_mysql_time_string isNd bytes = res := by
      simp [parse_mysql_time_string, hp]
    simp only [durationNew]
    rw [hw]
    cases res with
    | none => rfl
    | some t =>
      obtain ⟨neg, hh, mm, ss, uu⟩ := t
      have hneg : neg = true := parse_time_neg isNd bytes _ hhead hp
      subst hneg
      rfl
  · intro isNd bytes h m s u hp
    have hw : parse_mysql_time_string isNd bytes = some (true, h, m, s, u) := by
      simp [parse_mysql_time_string, hp]
    simp only [timeDurationNew]
    rw [hw]
    rfl

/-- Witness for C6: at `"-00:00:01"` the unsigned target rejects and the
signed target yields minus one second; at the `'-'`-headed
`timeBugInput` the parser invoked by the unsigned conversion panics. -/
theorem negative_time_duration_targets_witness :
    durationNew ndFragment (Value.Bytes [45, 48, 48, 58, 48, 48, 58, 48, 49]) =
      Except.error (Value.Bytes [45, 48, 48, 58, 48, 48, 58, 48, 49]) ∧
    timeDurationNew ndFragment (Value.Bytes [45, 48, 48, 58, 48, 48, 58, 48, 49]) =
      Except.ok ⟨Value.Bytes [45, 48, 48, 58, 48, 48, 58, 48, 49], -1000000⟩ ∧
    durationNew ndFragment (Value.Time true 0 0 0 1 0) =
      Except.error (Value.Time true 0 0 0 1 0) ∧
    parse_mysql_time_string? ndFragment (45 :: timeBugInput) = none := by
  obtain ⟨ht, hbug, hb, -, hd, -⟩ := negative_time_duration_targets
  refine ⟨hb ndFragment _ (some (true, 0, 0, 1, 0)) rfl (by rfl), ?_,
    ht ndFragment 0 0 0 1 0, hbug ndFragment (by decide) (by decide)⟩
  have := hd ndFragment [45, 48, 48, 58, 48, 48, 58, 48, 49] 0 0 1 0 (by rfl)
  simpa [timeDurMicros] using this

/-! ## `Row` (`src/row/mod.rs`)

A row is a fixed-length sequence of optional `Value` slots plus the
shared column metadata.  The generic target type of `get`/`take` is a
`ConvM`, mirroring the Rust `T: FromValue` bound. -/

/-- Modelled from the spec: `Column` (defined in the repository's
`packets` module, outside `src/`) is immutable per-query metadata; the
row code only ever reads its raw name bytes (`name_ref`), so only the
name is carried. -/
structure Column : Type where
  name : List Nat
  deriving DecidableEq, Repr

/-- The `Row` struct: `values: SmallVec<[Option<Value>; 12]>` and the
shared `columns`. -/
structure Row : Type where
  values : List (Option Value)
  columns : List Column
  deriving DecidableEq, Repr

/-- `new_row`: `assert!(values.len() == columns.len())` (`none` models
the abort), then wrap every value in `Some`. -/
def new_row (values : List Value) (columns : List Column) : Option Row :=
  if values.length = columns.length then
    some ⟨values.map some, columns⟩
  else none

/-- A `ColumnIndex`: a position (`usize`) or a name (`&str` as bytes). -/
inductive RowIndex : Type where
  | pos : Nat → RowIndex
  | name : List Nat → RowIndex
  deriving DecidableEq, Repr

/-- `ColumnIndex for &str`: first column whose raw name bytes equal the
index (linear scan). -/
def nameIdx (s : List Nat) : List Column → Option Nat
  | [] => none
  | c :: rest =>
    if c.name = s then some 0
    else (nameIdx s rest).map (· + 1)

/-- `ColumnIndex::idx`: positions resolve iff in range, names via the
scan. -/
def rowIdx (i : RowIndex) (columns : List Column) : Option Nat :=
  match i with
  | RowIndex.pos j => if j ≥ columns.length then none else some j
  | RowIndex.name s => nameIdx s columns

/-- `Row::get`: resolve the index, clone the slot's value if present and
convert with the panicking `from_value` (outer `none` = panic,
`some none` = absent). -/
def Row.get (c : ConvM) (r : Row) (i : RowIndex) : Option (Option c.Tgt) :=
  match rowIdx i r.columns with
  | none => some none
  | some j =>
    match r.values[j]? with
    | none => some none
    | some none => some none
    | some (some v) =>
      match from_value_optM c v with
      | Except.ok t => some (some t)
      | Except.error _ => none

/-- `Row::get_opt`: like `get` but surfacing the conversion result
(`none` = absent, no panic possible). -/
def Row.get_opt (c : ConvM) (r : Row) (i : RowIndex) :
    Option (Except Value c.Tgt) :=
  match rowIdx i r.columns with
  | none => none
  | some j =>
    match r.values[j]? with
    | none => none
    | some none => none
    | some (some v) => some (from_value_optM c v)

/-- `Row::take`: move the value out of the slot (`Option::take` leaves
`None` behind), then convert with the panicking `from_value`.  Returns
the call's result together with the mutated row. -/
def Row.take (c : ConvM) (r : Row) (i : RowIndex) :
    Option (Option c.Tgt) × Row :=
  match rowIdx i r.columns with
  | none => (some none, r)
  | some j =>
    match r.values[j]? with
    | none => (some none, r)
    | some none => (some none, r)
    | some (some v) =>
      (match from_value_optM c v with
        | Except.ok t => some (some t)
        | Except.error _ => none,
        ⟨r.values.set j none, r.columns⟩)

/-- `Row::take_opt`: move the value out, then convert, surfacing the
conversion result. -/
def Row.take_opt (c : ConvM) (r : Row) (i : RowIndex) :
    Option (Except Value c.Tgt) × Row :=
  match rowIdx i r.columns with
  | none => (none, r)
  | some j =>
    match r.values[j]? with
    | none => (none, r)
    | some none => (none, r)
    | some (some v) =>
      (some (from_value_optM c v), ⟨r.values.set j none, r.columns⟩)

/-- `Row::place`: `self.values[index] = Some(value)`; `none` models the
index panic. -/
def Row.place? (r : Row) (j : Nat) (v : Value) : Option Row :=
  if j < r.values.length then some ⟨r.values.set j (some v), r.columns⟩
  else none

/-! ### Row theorems -/

/-- **C8**: `new_row` aborts exactly on a length mismatch; a
successfully constructed row satisfies `len(values) = len(columns)`;
`take`/`take_opt` keep the length and the columns (they blank the slot
instead of removing it), as does `place`. -/
theorem row_length_invariant :
    (∀ vs cs, new_row vs cs = none ↔ vs.length ≠ cs.length) ∧
    (∀ vs cs r, new_row vs cs = some r →
      r.values.length = r.columns.length) ∧
    (∀ (c : ConvM) (r : Row) (i : RowIndex),
      ((Row.take c r i).2).values.length = r.values.length ∧
        ((Row.take c r i).2).columns = r.columns) ∧
    (∀ (c : ConvM) (r : Row) (i : RowIndex),
      ((Row.take_opt c r i).2).values.length = r.values.length ∧
        ((Row.take_opt c r i).2).columns = r.columns) ∧
    (∀ (c : ConvM) (r : Row) (i : RowIndex) (j : Nat) (v : Value),
      rowIdx i r.columns = some j → r.values[j]? = some (some v) →
        ((Row.take c r i).2).values[j]? = some none) ∧
    (∀ (r : Row) (j : Nat) (v : Value) (r2 : Row),
      Row.place? r j v = some r2 →
        r2.values.length = r.values.length ∧ r2.columns = r.columns) := by
  refine ⟨?_, ?_, ?_, ?_, ?_, ?_⟩
  · intro vs cs
    unfold new_row
    split
    · next h => simp [h]
    · next h => simp [h]
  · intro vs cs r h
    unfold new_row at h
    split at h
    · next he => cases h; simpa using he
    · exact Option.noConfusion h
  · intro c r i
    simp only [Row.take]
    split
    · exact ⟨rfl, rfl⟩
    · split
      · exact ⟨rfl, rfl⟩
      · exact ⟨rfl, rfl⟩
      · exact ⟨by simp, rfl⟩
  · intro c r i
    simp only [Row.take_opt]
    split
    · exact ⟨rfl, rfl⟩
    · split
      · exact ⟨rfl, rfl⟩
      · exact ⟨rfl, rfl⟩
      · exact ⟨by simp, rfl⟩
  · intro c r i j v hidx hv
    have hj : j < r.values.length := (List.getElem?_eq_some.mp hv).1
    simp only [Row.take, hidx, hv]
    simp [List.getElem?_set_eq_of_lt _ hj]
  · intro r j v r2 h
    unfold Row.place? at h
    split at h
    · cases h
      exact ⟨by simp, rfl⟩
    · exact Option.noConfusion h

/-- Witness for C8 at concrete rows. -/
theorem row_length_invariant_witness :
    new_row [Value.NULL] [] = none ∧
      new_row [Value.NULL] [⟨[97]⟩] = some ⟨[some Value.NULL], [⟨[97]⟩]⟩ := by
  have h := row_length_invariant.1 [Value.NULL] []
  exact ⟨h.mpr (by decide), by rfl⟩

/-- **C9**: after a `take` (or `take_opt`) the same index is absent for
every subsequent `get`, `get_opt`, `take`, `take_opt` (even with a
different target type), and an index that does not resolve (position
out of range or unknown name) is likewise absent, never an error. -/
theorem taken_slot_absent :
    (∀ (c c2 : ConvM) (r : Row) (i : RowIndex),
      Row.get c2 (Row.take c r i).2 i = some none ∧
        Row.get_opt c2 (Row.take c r i).2 i = none ∧
        Row.take c2 (Row.take c r i).2 i = (some none, (Row.take c r i).2) ∧
        Row.take_opt c2 (Row.take c r i).2 i = (none, (Row.take c r i).2)) ∧
    (∀ (c : ConvM) (r : Row) (i : RowIndex),
      (Row.take_opt c r i).2 = (Row.take c r i).2) ∧
    (∀ (c : ConvM) (r : Row) (i : RowIndex), rowIdx i r.columns = none →
      Row.get c r i = some none ∧ Row.get_opt c r i = none ∧
        Row.take c r i = (some none, r) ∧ Row.take_opt c r i = (none, r)) := by
  have habsent : ∀ (c2 : ConvM) (r2 : Row) (i : RowIndex) (j : Nat),
      rowIdx i r2.columns = some j → r2.values[j]? = some none →
      Row.get c2 r2 i = some none ∧ Row.get_opt c2 r2 i = none ∧
        Row.take c2 r2 i = (some none, r2) ∧
        Row.take_opt c2 r2 i = (none, r2) := by
    intro c2 r2 i j hidx hv
    refine ⟨?_, ?_, ?_, ?_⟩ <;>
      simp only [Row.get, Row.get_opt, Row.take, Row.take_opt, hidx, hv]
  have hmiss : ∀ (c2 : ConvM) (r2 : Row) (i : RowIndex) (j : Nat),
      rowIdx i r2.columns = some j → r2.values[j]? = none →
      Row.get c2 r2 i = some none ∧ Row.get_opt c2 r2 i = none ∧
        Row.take c2 r2 i = (some none, r2) ∧
        Row.take_opt c2 r2 i = (none, r2) := by
    intro c2 r2 i j hidx hv
    refine ⟨?_, ?_, ?_, ?_⟩ <;>
      simp only [Row.get, Row.get_opt, Row.take, Row.take_opt, hidx, hv]
  have hnores : ∀ (c : ConvM) (r : Row) (i : RowIndex),
      rowIdx i r.columns = none →
      Row.get c r i = some none ∧ Row.get_opt c r i = none ∧
        Row.take c r i = (some none, r) ∧ Row.take_opt c r i = (none, r) := by
    intro c r i hidx
    refine ⟨?_, ?_, ?_, ?_⟩ <;>
      simp only [Row.get, Row.get_opt, Row.take, Row.take_opt, hidx]
  refine ⟨?_, ?_, hnores⟩
  · intro c c2 r i
    cases hidx : rowIdx i r.columns with
    | none =>
      have h2 : (Row.take c r i).2 = r := by
        simp only [Row.take, hidx]
      rw [h2]
      exact hnores c2 r i hidx
    | some j =>
      cases hv : r.values[j]? with
      | none =>
        have h2 : (Row.take c r i).2 = r := by
          simp only [Row.take, hidx, hv]
        rw [h2]
        exact hmiss c2 r i j hidx hv
      | some ov =>
        cases ov with
        | none =>
          have h2 : (Row.take c r i).2 = r := by
            simp only [Row.take, hidx, hv]
          rw [h2]
          exact habsent c2 r i j hidx hv
        | some v =>
          have hj : j < r.values.length := (List.getElem?_eq_some.mp hv).1
          have h2 : (Row.take c r i).2 = ⟨r.values.set j none, r.columns⟩ := by
            simp only [Row.take, hidx, hv]
          rw [h2]
          exact habsent c2 _ i j hidx
            (by simpa using List.getElem?_set_eq_of_lt _ hj)
  · intro c r i
    cases hidx : rowIdx i r.columns with
    | none => simp only [Row.take, Row.take_opt, hidx]
    | some j =>
      cases hv : r.values[j]? with
      | none => simp only [Row.take, Row.take_opt, hidx, hv]
      | some ov =>
        cases ov with
        | none => simp only [Row.take, Row.take_opt, hidx, hv]
        | some v => simp only [Row.take, Row.take_opt, hidx, hv]

/-- Witness for C9: taking column 0 of a one-column row, then reading it
again, and probing an out-of-range position. -/
theorem taken_slot_absent_witness :
    Row.get boolConv
      (Row.take boolConv ⟨[some (Value.Int 1)], [⟨[97]⟩]⟩ (RowIndex.pos 0)).2
      (RowIndex.pos 0) = some none ∧
    Row.get boolConv ⟨[some (Value.Int 1)], [⟨[97]⟩]⟩ (RowIndex.pos 1) =
      some none := by
  exact ⟨(taken_slot_absent.1 boolConv boolConv
      ⟨[some (Value.Int 1)], [⟨[97]⟩]⟩ (RowIndex.pos 0)).1,
    (taken_slot_absent.2.2 boolConv ⟨[some (Value.Int 1)], [⟨[97]⟩]⟩
      (RowIndex.pos 1) (by rfl)).1⟩

/-- **C10**: `take_opt` removes the value from the slot before the
conversion runs: when the conversion fails the call returns
`Some(Err(FromValueError(w)))`, the slot is left empty (subsequent
`get`/`take` are absent), and — by error preservation — `w` is the
original value. -/
theorem take_opt_moves_before_conversion :
    ∀ (c : ConvM) (r : Row) (i : RowIndex) (j : Nat) (v w : Value),
      rowIdx i r.columns = some j →
      r.values[j]? = some (some v) →
      from_value_optM c v = Except.error w →
      Row.take_opt c r i =
        (some (Except.error w), ⟨r.values.set j none, r.columns⟩) ∧
      ((Row.take_opt c r i).2).values[j]? = some none ∧
      Row.get c (Row.take_opt c r i).2 i = some none ∧
      (Row.take c (Row.take_opt c r i).2 i).1 = some none ∧
      (errPreserves c → w = v) := by
  intro c r i j v w hidx hv herr
  have hj : j < r.values.length := (List.getElem?_eq_some.mp hv).1
  have heq : Row.take_opt c r i =
      (some (Except.error w), ⟨r.values.set j none, r.columns⟩) := by
    simp only [Row.take_opt, hidx, hv, herr]
  have hslot : ((Row.take_opt c r i).2).values[j]? = some none := by
    rw [heq]
    simpa using List.getElem?_set_eq_of_lt _ hj
  refine ⟨heq, hslot, ?_, ?_, ?_⟩
  · have hcols : ((Row.take_opt c r i).2).columns = r.columns := by rw [heq]
    simp only [Row.get, hcols, hidx, hslot]
  · have hcols : ((Row.take_opt c r i).2).columns = r.columns := by rw [heq]
    simp only [Row.take, hcols, hidx, hslot]
  · intro hc
    exact hc v w (by
      have := herr
      simp only [from_value_optM] at this
      split at this
      · exact Except.noConfusion this
      · cases this
        rename_i e hin
        exact hin)

/-- Witness for C10: taking a `Float` slot as `bool` fails but empties
the slot and hands back the float. -/
theorem take_opt_moves_before_conversion_witness :
    Row.take_opt boolConv ⟨[some (Value.Float 7)], [⟨[97]⟩]⟩ (RowIndex.pos 0) =
      (some (Except.error (Value.Float 7)),
        ⟨[none], [⟨[97]⟩]⟩) := by
  have h := take_opt_moves_before_conversion boolConv
    ⟨[some (Value.Float 7)], [⟨[97]⟩]⟩ (RowIndex.pos 0) 0
    (Value.Float 7) (Value.Float 7) (by rfl) (by rfl) (by rfl)
  exact h.1

end MysqlCommon
